import Mathlib

set_option maxRecDepth 100000

/-!
# Verification of the procedural terrain generator (`GeneratedMapLoader`)

Shallow embedding of `src/core/game/GeneratedMapLoader.ts` and of the
parameter store it reads (`GeneratedParams.ts`).

Modelling conventions:
* JS numbers that are used only through integer arithmetic (`>>> 0`, `<<`,
  `%`, `&`, `|`, array indexing, byte values) become `Nat` with explicit
  `% 2^32` where the JS int32/uint32 truncation matters.
* The floating-point front end of `generateTerrainBin` (simplex noise,
  octave summation, gamma) is abstracted as an oracle: a pure function that
  receives exactly the values the source feeds into that computation
  (seed, octave parameters read from the global store, contrast gamma,
  land threshold, and the cell coordinates) and returns the two
  integer-exact facts the rest of the pipeline consumes: the land/water
  decision `v > landThreshold` and the unclamped `floor(vLand * 31)`.
  Every pass after the per-cell float computation is exact integer and
  byte arithmetic and is embedded literally.
* Terrain buffers are `List Nat` (row-major bytes), mutation becomes
  `List.set`, `Uint8Array` reads out of range default to `0` via `getD`.
* The two breadth-first searches use an explicit FIFO queue exactly as the
  source does; their `while` loops are given a fuel argument that is an
  over-approximation of the number of loop iterations actually possible.
-/

namespace OpenFront

/-- `xorshift32` from `GeneratedMapLoader.ts`: `x ^= x << 13; x ^= x >>> 17;
`x ^= x << 5; return x >>> 0`, on 32-bit values.  JS `<<` truncates to 32
bits (modelled as `% 2^32`); `>>>` is a logical right shift on the 32-bit
pattern. -/
def xorshift32 (x : Nat) : Nat :=
  let a := Nat.xor x ((x <<< 13) % 4294967296)
  let b := Nat.xor a (a >>> 17)
  Nat.xor b ((b <<< 5) % 4294967296)

/-- One Fisher–Yates swap `tmp = p[i]; p[i] = p[j]; p[j] = tmp` on a list. -/
def listSwap (p : List Nat) (i j : Nat) : List Nat :=
  let tmp := p.getD i 0
  ((p.set i (p.getD j 0)).set j tmp)

/-- The `for (let i = 255; i > 0; i--)` shuffle loop of `buildPermutation`:
at each step the generator advances, `j = s % (i + 1)`, and entries `i`,`j`
are swapped. -/
def fisherYatesLoop : Nat → Nat → List Nat → List Nat
  | 0, _, p => p
  | i + 1, s, p =>
      let s' := xorshift32 s
      let j := s' % (i + 1 + 1)
      fisherYatesLoop i s' (listSwap p (i + 1) j)

/-- `buildPermutation(seed)` from `Simplex2D`: identity table over `0..255`
shuffled by a seeded Fisher–Yates driven by `xorshift32`; the seed is first
normalised with `>>> 0`. -/
def buildPermutation (seed : Nat) : List Nat :=
  fisherYatesLoop 255 (seed % 4294967296) (List.range 256)

/-! ## Generation parameters and the abstract float front end -/

/-- The `GeneratedParams` record of `GeneratedParams.ts` (the global
parameter store's payload; the store hands out plain copies).  Real-valued
fields are modelled as `ℚ`; the core only passes them around or hands them
to the float front end. -/
structure GenParams where
  octaves : Nat
  lacunarity : ℚ
  persistence : ℚ
  landThreshold : ℚ
  seed : Nat
  contrastGamma : ℚ
  width : Nat
  height : Nat
  width4x : Nat
  height4x : Nat
  width16x : Nat
  height16x : Nat
  minLandRegionSize : Nat
  minWaterRegionSize : Nat
  smoothingRadius : Nat
  ridgeAccent : Bool
deriving DecidableEq

/-- Abstraction of the floating-point per-cell computation in
`generateTerrainBin` (simplex noise over the seed-built tables, octave
summation, normalisation, clamping and gamma).  Arguments, in order: the
noise seed, the octave count, lacunarity, persistence (the three read from
the global store), the contrast gamma, the land threshold, and the cell
coordinates `x`, `y`.  It returns the land/water decision
`v > landThreshold` together with `floor(vLand * 31)` for the land case
(a nonnegative integer; the pipeline applies the source's clamp to 31). -/
def NoiseOracle : Type :=
  Nat → Nat → ℚ → ℚ → ℚ → ℚ → Nat → Nat → Bool × Nat

/-! ## Byte encoding (tile encoder) -/

/-- Per-cell byte composition from the first loop of `generateTerrainBin`:
`landBit | oceanBit | (magnitude & 0x1f)) & 0xff`, where water cells get
the raw `OCEAN` bit and magnitude `0` (`vLand = 0`). -/
def encodeCell (isLand : Bool) (rawMag : Nat) : Nat :=
  let vLandMag := if isLand then rawMag else 0
  let magnitude := min 31 vLandMag
  let landBit := if isLand then 128 else 0
  let oceanBit := if isLand then 0 else 32
  Nat.land (Nat.lor (Nat.lor landBit oceanBit) (Nat.land magnitude 31)) 255

/-- Row-major index `y * width + x`. -/
def gIdx (width x y : Nat) : Nat := y * width + x

/-- Bounds test over signed candidate coordinates. -/
def gInBounds (width height : Nat) (x y : Int) : Bool :=
  0 ≤ x && x < (width : Int) && 0 ≤ y && y < (height : Int)

/-- The 4-neighbourhood offsets, in source order. -/
def dirs : List (Int × Int) := [(1, 0), (-1, 0), (0, 1), (0, -1)]

/-! ## Region pruning pass (`removeSmallRegions`) -/

/-- Queue loop of the `bfs` closure in `removeSmallRegions`: pops the head,
records the cell, and enqueues unvisited in-bounds neighbours whose byte
equals `target`, marking them visited at push time.  `fuel` bounds the
number of pops; `width*height + 1` always suffices because each push marks
a previously unvisited cell. -/
def rsrBfs (grid : List Nat) (width height target : Nat) :
    Nat → List (Nat × Nat) → List Bool → List (Nat × Nat) →
    List (Nat × Nat) × List Bool
  | 0, _, visited, cells => (cells, visited)
  | _ + 1, [], visited, cells => (cells, visited)
  | fuel + 1, (cx, cy) :: q, visited, cells =>
      let st := dirs.foldl
        (fun (st : List Bool × List (Nat × Nat)) d =>
          let nx : Int := (cx : Int) + d.1
          let ny : Int := (cy : Int) + d.2
          if gInBounds width height nx ny then
            let ni := gIdx width nx.toNat ny.toNat
            if st.1.getD ni false then st
            else if grid.getD ni 0 = target then
              (st.1.set ni true, st.2 ++ [(nx.toNat, ny.toNat)])
            else st
          else st)
        (visited, q)
      rsrBfs grid width height target fuel st.2 st.1 (cells ++ [(cx, cy)])

/-- `bfs(sx, sy, target)`: seeds the queue with the start cell (marked
visited up front) and runs the loop; returns the component's cells and the
updated visited array. -/
def rsrComponent (grid : List Nat) (width height target sx sy : Nat)
    (visited : List Bool) : List (Nat × Nat) × List Bool :=
  rsrBfs grid width height target (width * height + 1)
    [(sx, sy)] (visited.set (gIdx width sx sy) true) []

/-- Writes `repl` into every cell of a component (the
`for (const [cx, cy] of comp.cells) grid[index(cx, cy)] = repl` loop). -/
def setCells (width repl : Nat) (grid : List Nat)
    (cells : List (Nat × Nat)) : List Nat :=
  cells.foldl (fun g c => g.set (gIdx width c.1 c.2) repl) grid

/-- One step of a `removeSmallRegions` scan: at linear index `i`, if the
cell is unvisited and its byte equals `target`, flood its component and
overwrite it with `repl` when it is smaller than `minSize`. -/
def rsrScanStep (width height target minSize repl : Nat)
    (st : List Nat × List Bool) (i : Nat) : List Nat × List Bool :=
  if st.2.getD i false = false ∧ st.1.getD i 0 = target then
    let x := i % width
    let y := i / width
    let comp := rsrComponent st.1 width height target x y st.2
    if comp.1.length < minSize then
      (setCells width repl st.1 comp.1, comp.2)
    else (st.1, comp.2)
  else st

/-- `removeSmallRegions(grid, width, height, minLandSize, minWaterSize)`:
a raster scan removing land components (`grid[i] === 1`) smaller than
`minLandSize`, then — after resetting `visited` — filling water components
(`grid[i] === 0`) smaller than `minWaterSize`. -/
def removeSmallRegions (grid : List Nat) (width height minLandSize
    minWaterSize : Nat) : List Nat :=
  let v0 := List.replicate (width * height) false
  let land := (List.range (width * height)).foldl
    (rsrScanStep width height 1 minLandSize 0) (grid, v0)
  let water := (List.range (width * height)).foldl
    (rsrScanStep width height 0 minWaterSize 1)
    (land.1, List.replicate (width * height) false)
  water.1

/-! ## Ocean flood fill and shoreline pass -/

/-- Edge seeding of the ocean flood fill: every non-land cell on the top or
bottom row, then every non-land cell on the left or right column, in source
order. -/
def floodSeeds (buf : List Nat) (width height : Nat) : List (Nat × Nat) :=
  let horiz := (List.range width).foldl
    (fun q x =>
      [0, height - 1].foldl
        (fun q y =>
          if Nat.land (buf.getD (gIdx width x y) 0) 128 = 0 then
            q ++ [(x, y)]
          else q) q)
    []
  (List.range height).foldl
    (fun q y =>
      [0, width - 1].foldl
        (fun q x =>
          if Nat.land (buf.getD (gIdx width x y) 0) 128 = 0 then
            q ++ [(x, y)]
          else q) q)
    horiz

/-- The `while (q.length > 0)` BFS that ORs the `OCEAN` bit (bit 5) into
every edge-reachable water cell.  Visited is checked at pop time exactly as
in the source, so the queue may carry duplicates; the fuel passed by
`generateTerrainBin` over-approximates the possible pops. -/
def floodLoop (width height : Nat) :
    Nat → List Nat → List Bool → List (Nat × Nat) → List Nat
  | 0, buf, _, _ => buf
  | _ + 1, buf, _, [] => buf
  | fuel + 1, buf, visited, (cx, cy) :: q =>
      let ci := gIdx width cx cy
      if visited.getD ci false then floodLoop width height fuel buf visited q
      else
        let visited := visited.set ci true
        let ccell := buf.getD ci 0
        if Nat.land ccell 128 ≠ 0 then
          floodLoop width height fuel buf visited q
        else
          let buf := buf.set ci (Nat.lor ccell 32)
          let q := dirs.foldl
            (fun q d =>
              let nx : Int := (cx : Int) + d.1
              let ny : Int := (cy : Int) + d.2
              if gInBounds width height nx ny then
                let ni := gIdx width nx.toNat ny.toNat
                if visited.getD ni false then q
                else if Nat.land (buf.getD ni 0) 128 = 0 then
                  q ++ [(nx.toNat, ny.toNat)]
                else q
              else q)
            q
          floodLoop width height fuel buf visited q

/-- Post-classification pass: set `SHORELINE` (bit 6) on every land cell
with at least one in-bounds 4-neighbour carrying the `OCEAN` bit, reading
and writing the buffer in place like the source loop. -/
def shorelinePass (width height : Nat) (buf : List Nat) : List Nat :=
  (List.range (width * height)).foldl
    (fun out i =>
      let cell := out.getD i 0
      if Nat.land cell 128 = 0 then out
      else
        let x := i % width
        let y := i / width
        let adjacentOcean :=
          (decide (0 < x) &&
            decide (Nat.land (out.getD (gIdx width (x - 1) y) 0) 32 ≠ 0)) ||
          (decide (x + 1 < width) &&
            decide (Nat.land (out.getD (gIdx width (x + 1) y) 0) 32 ≠ 0)) ||
          (decide (0 < y) &&
            decide (Nat.land (out.getD (gIdx width x (y - 1)) 0) 32 ≠ 0)) ||
          (decide (y + 1 < height) &&
            decide (Nat.land (out.getD (gIdx width x (y + 1)) 0) 32 ≠ 0))
        if adjacentOcean then out.set i (Nat.lor cell 64) else out)
    buf

/-! ## Magnitude smoothing and ridge accent -/

/-- Window offsets `-radius .. radius`. -/
def winOffsets (radius : Nat) : List Int :=
  (List.range (2 * radius + 1)).map (fun k => (k : Int) - (radius : Int))

/-- Land-only magnitude sum and count over a square window centred at
`(x, y)`, read from the frozen `copy` buffer. -/
def windowSum (copy : List Nat) (width height radius x y : Nat) : Nat × Nat :=
  (winOffsets radius).foldl
    (fun acc dy =>
      (winOffsets radius).foldl
        (fun (acc : Nat × Nat) dx =>
          let nx : Int := (x : Int) + dx
          let ny : Int := (y : Int) + dy
          if gInBounds width height nx ny then
            let ni := gIdx width nx.toNat ny.toNat
            if Nat.land (copy.getD ni 0) 128 = 0 then acc
            else (acc.1 + Nat.land (copy.getD ni 0) 31, acc.2 + 1)
          else acc)
        acc)
    (0, 0)

/-- Smoothing pass: for land cells (and radius > 0) replace the low 5 bits
with the floored land-only window mean; `~MAG_MASK` is the uint32 pattern
`0xFFFFFFE0`. -/
def smoothPass (width height radius : Nat) (buf : List Nat) : List Nat :=
  let copy := buf
  (List.range (width * height)).foldl
    (fun out i =>
      if Nat.land (copy.getD i 0) 128 = 0 then out
      else if radius = 0 then out
      else
        let x := i % width
        let y := i / width
        let sc := windowSum copy width height radius x y
        let avg := min 31 (max 0 (sc.1 / max 1 sc.2))
        out.set i
          (Nat.lor (Nat.land (out.getD i 0) 4294967264) (Nat.land avg 31)))
    buf

/-- Ridge-accent pass: for land cells whose magnitude is at least the local
3×3 land-only mean plus 2, boost the magnitude by 2 (clamped to 31). -/
def ridgePass (width height : Nat) (enableAccent : Bool)
    (buf : List Nat) : List Nat :=
  if enableAccent then
    let copy := buf
    (List.range (width * height)).foldl
      (fun out i =>
        if Nat.land (copy.getD i 0) 128 = 0 then out
        else
          let x := i % width
          let y := i / width
          let selfMag := Nat.land (copy.getD i 0) 31
          let sc := windowSum copy width height 1 x y
          let avg := sc.1 / max 1 sc.2
          if avg + 2 ≤ selfMag then
            let boosted := min 31 (selfMag + 2)
            out.set i
              (Nat.lor (Nat.land (out.getD i 0) 4294967264)
                (Nat.land boosted 31))
          else out)
      buf
  else buf

/-! ## `generateTerrainBin` -/

/-- `generateTerrainBin(width, height, seed, landThreshold)`, parameterised
by the loader's optional constructor params (`this.params`), the global
store snapshot (`GeneratedParams.get()`, assumed stable for the call), and
the float front-end oracle.  As in the source: octave parameters and the
minimum region sizes are read from the global store, while contrast gamma,
smoothing radius and the ridge-accent flag come from
`this.params ?? GeneratedParams.get()`. -/
def generateTerrainBin (cparams : Option GenParams) (store : GenParams)
    (oracle : NoiseOracle) (width height seed : Nat)
    (landThreshold : ℚ) : List Nat :=
  let gamma := (cparams.getD store).contrastGamma
  let encoded := (List.range (width * height)).map
    (fun i =>
      let x := i % width
      let y := i / width
      let cell := oracle seed store.octaves store.lacunarity
        store.persistence gamma landThreshold x y
      encodeCell cell.1 cell.2)
  let pruned := removeSmallRegions encoded width height
    store.minLandRegionSize store.minWaterRegionSize
  let flooded := floodLoop width height
    (4 * (width * height) + 2 * (width + height) + 1) pruned
    (List.replicate (width * height) false) (floodSeeds pruned width height)
  let shored := shorelinePass width height flooded
  let radius := max 0 (min 2 (cparams.getD store).smoothingRadius)
  let smoothed := smoothPass width height radius shored
  ridgePass width height (cparams.getD store).ridgeAccent smoothed

/-- `countLand`: counts buffer bytes strictly equal to `1`. -/
def countLand (buf : List Nat) : Nat :=
  buf.foldl (fun c b => c + if b = 1 then 1 else 0) 0

/-- Number of cells whose `IS_LAND` bit (bit 7) is set — the quantity the
spec says the manifest should report. -/
def landTiles (buf : List Nat) : Nat :=
  buf.countP (fun b => b.testBit 7)

/-! ## Map identities, map products, and `getMapData` -/

/-- Modelled from the spec: the map-identity discriminator (`GameMapType`
in `Game.ts`, which is not part of the sources here).  Its members are the
thirty fixed maps enumerated by the repository's manifest tables plus the
designated procedurally generated kind. -/
inductive GameMapType where
  | africa | asia | australia | baikal | betweenTwoSeas | blackSea
  | britannia | deglaciatedAntarctica | eastAsia | europe | europeClassic
  | falklandIslands | faroeIslands | gatewayToTheAtlantic | giantWorldMap
  | halkidiki | iceland | italia | japan | mars | mena | montreal
  | northAmerica | oceania | pangaea | pluto | southAmerica
  | straitOfGibraltar | world | yenisei | generated
deriving DecidableEq, Fintype

/-- Modelled from the spec: the string a map identity interpolates to in
the error message (the member name, one per identity). -/
def gameMapTypeName : GameMapType → String
  | .africa => "Africa"
  | .asia => "Asia"
  | .australia => "Australia"
  | .baikal => "Baikal"
  | .betweenTwoSeas => "BetweenTwoSeas"
  | .blackSea => "BlackSea"
  | .britannia => "Britannia"
  | .deglaciatedAntarctica => "DeglaciatedAntarctica"
  | .eastAsia => "EastAsia"
  | .europe => "Europe"
  | .europeClassic => "EuropeClassic"
  | .falklandIslands => "FalklandIslands"
  | .faroeIslands => "FaroeIslands"
  | .gatewayToTheAtlantic => "GatewayToTheAtlantic"
  | .giantWorldMap => "GiantWorldMap"
  | .halkidiki => "Halkidiki"
  | .iceland => "Iceland"
  | .italia => "Italia"
  | .japan => "Japan"
  | .mars => "Mars"
  | .mena => "Mena"
  | .montreal => "Montreal"
  | .northAmerica => "NorthAmerica"
  | .oceania => "Oceania"
  | .pangaea => "Pangaea"
  | .pluto => "Pluto"
  | .southAmerica => "SouthAmerica"
  | .straitOfGibraltar => "StraitOfGibraltar"
  | .world => "World"
  | .yenisei => "Yenisei"
  | .generated => "Generated"

/-- Modelled from the spec: a nation entry of a map manifest (shape owned
by the external terrain loader; the generated loader always produces an
empty nation list, so no field is ever inspected here). -/
inductive Nation where
  | mk : Nation
deriving DecidableEq

/-- Per-resolution manifest entry: width, height and the reported
land-tile count. -/
structure ManifestRes where
  width : Nat
  height : Nat
  num_land_tiles : Nat
deriving DecidableEq

/-- The `MapManifest` assembled by `getMapData`. -/
structure MapManifest where
  name : String
  map : ManifestRes
  map4x : ManifestRes
  map16x : ManifestRes
  nations : List Nation
deriving DecidableEq

/-- A map product (`MapData`): the source exposes the buffers, manifest
and thumbnail through async accessors that resolve to these values; the
payloads are modelled directly. -/
structure MapData where
  mapBin : List Nat
  map4xBin : List Nat
  map16xBin : List Nat
  manifest : MapManifest
  webpPath : String
deriving DecidableEq

/-- Loader instance state: the `maps` cache (only the generated identity
can ever be stored, so it is an optional slot) plus an instrumentation
counter of noise-evaluator constructions (one `new Simplex2D` per
`generateTerrainBin` call). -/
structure LoaderState where
  cache : Option MapData
  noiseEvaluatorInits : Nat
deriving DecidableEq

/-- `generateNations(defaults)`: intentionally empty for MVP. -/
def generateNations (_defaults : List Nation) : List Nation := []

/-- `placeholderThumbnail()`: the fixed 1×1 transparent PNG data URL. -/
def placeholderThumbnail : String :=
  "data:image/png;base64,iVBORw0KGgoAAAANSUhEUgAAAAEAAAABCAQAAAC1HAwCAAAAC0lEQVR42mP8/x8AAoMBgYQJk+UAAAAASUVORK5CYII="

/-- The error message thrown for a non-generated identity. -/
def rejectionMessage (m : GameMapType) : String :=
  "GeneratedMapLoader only supports GameMapType.Generated, received: "
    ++ gameMapTypeName m

/-- `getMapData(map)`: rejects non-generated identities before touching any
state, returns the cached product when present, otherwise generates the
three decorrelated resolutions (base seed, seed+101, seed+202), assembles
the manifest (using `countLand`), caches and returns the product.
Dimensions, seed and threshold come from `this.params ?? GeneratedParams.get()`. -/
def getMapData (cparams : Option GenParams) (store : GenParams)
    (oracle : NoiseOracle) (st : LoaderState) (m : GameMapType) :
    Except String MapData × LoaderState :=
  if m ≠ GameMapType.generated then
    (Except.error (rejectionMessage m), st)
  else
    match st.cache with
    | some cached => (Except.ok cached, st)
    | none =>
        let p := cparams.getD store
        let seed := p.seed
        let mapBin := generateTerrainBin cparams store oracle
          p.width p.height seed p.landThreshold
        let map4xBin := generateTerrainBin cparams store oracle
          p.width4x p.height4x (seed + 101) p.landThreshold
        let map16xBin := generateTerrainBin cparams store oracle
          p.width16x p.height16x (seed + 202) p.landThreshold
        let manifest : MapManifest :=
          { name := "Generated"
            map := { width := p.width, height := p.height
                     num_land_tiles := countLand mapBin }
            map4x := { width := p.width4x, height := p.height4x
                       num_land_tiles := countLand map4xBin }
            map16x := { width := p.width16x, height := p.height16x
                        num_land_tiles := countLand map16xBin }
            nations := generateNations [] }
        let data : MapData :=
          { mapBin := mapBin, map4xBin := map4xBin, map16xBin := map16xBin
            manifest := manifest, webpPath := placeholderThumbnail }
        (Except.ok data,
          { cache := some data
            noiseEvaluatorInits := st.noiseEvaluatorInits + 3 })

/-! ## Concrete fixtures for evaluation -/

/-- A small concrete parameter record (3×3 base map, 1×1 mip maps,
`minLandRegionSize = 2`, `minWaterRegionSize = 0`, no smoothing, no ridge
accent) used to evaluate the pipeline on hand-checkable grids. -/
def sampleParams : GenParams :=
  { octaves := 5, lacunarity := 2, persistence := 3/5, landThreshold := 23/50
    seed := 7, contrastGamma := 4/5, width := 3, height := 3, width4x := 1
    height4x := 1, width16x := 1, height16x := 1, minLandRegionSize := 2
    minWaterRegionSize := 0, smoothingRadius := 0, ridgeAccent := false }

/-- Front-end oracle describing a single 1-cell land island at `(1, 1)` in
a sea of water (all raw magnitudes `0`). -/
def islandOracle : NoiseOracle :=
  fun _ _ _ _ _ _ x y => (decide (x = 1 ∧ y = 1), 0)

/-- Front-end oracle describing a ring of land enclosing one water cell at
`(1, 1)` (a lake with no water path to the border). -/
def ringOracle : NoiseOracle :=
  fun _ _ _ _ _ _ x y => (!decide (x = 1 ∧ y = 1), 0)

/-- `sampleParams` with different octaves, lacunarity, persistence and
minimum region sizes — the five fields the generator reads from the global
store rather than from the injected params. -/
def sampleParamsB : GenParams :=
  { sampleParams with
    octaves := 7
    lacunarity := 3
    persistence := 1/2
    minLandRegionSize := 9
    minWaterRegionSize := 9 }

/-- The byte shapes a generated buffer can contain: exactly `0x20` for
water, or `0x80 | mag` / `0xC0 | mag` (`mag ≤ 31`) for land without/with
the shoreline flag.  Every pass of the pipeline preserves this set. -/
def Shape (b : Nat) : Prop :=
  b = 32 ∨ ∃ s m, (s = 0 ∨ s = 64) ∧ m ≤ 31 ∧ b = 128 + s + m

/-- Cell-indexed invariant for the two magnitude-rewriting passes: the
buffer keeps its length and every cell is either untouched or holds a
shaped land byte. -/
def MagInv (buf out : List Nat) : Prop :=
  out.length = buf.length ∧
    ∀ j, out.getD j 0 = buf.getD j 0 ∨
      (Shape (out.getD j 0) ∧ Nat.land (out.getD j 0) 128 ≠ 0)

/-! ## Permutation-builder lemmas -/

/-- Replacing one entry of a list and consing the old entry back is a
permutation of consing the new entry in front. -/
theorem cons_set_perm :
    ∀ (t : List Nat) (j : Nat) (a : Nat), j < t.length →
      List.Perm (t.getD j 0 :: t.set j a) (a :: t) := by
  intro t
  induction t with
  | nil => intro j a h; simp at h
  | cons b t ih =>
      intro j a h
      cases j with
      | zero => simpa using List.Perm.swap a b t
      | succ j =>
          have hj : j < t.length := by simpa using h
          have step1 :
              List.Perm (t.getD j 0 :: b :: t.set j a)
                (b :: t.getD j 0 :: t.set j a) := List.Perm.swap b _ _
          have step2 :
              List.Perm (b :: t.getD j 0 :: t.set j a) (b :: a :: t) :=
            List.Perm.cons b (ih j a hj)
          have step3 : List.Perm (b :: a :: t) (a :: b :: t) :=
            List.Perm.swap a b t
          simpa using (step1.trans step2).trans step3

/-- A Fisher–Yates swap of two in-range entries is a permutation of the
original list. -/
theorem listSwap_perm :
    ∀ (l : List Nat) (i j : Nat), i < l.length → j < l.length →
      List.Perm (listSwap l i j) l := by
  intro l
  induction l with
  | nil => intro i j hi _; simp at hi
  | cons a t ih =>
      intro i j hi hj
      cases i with
      | zero =>
          cases j with
          | zero => simp [listSwap]
          | succ j =>
              have hj' : j < t.length := by simpa using hj
              simpa [listSwap] using cons_set_perm t j a hj'
      | succ i =>
          cases j with
          | zero =>
              have hi' : i < t.length := by simpa using hi
              simpa [listSwap] using cons_set_perm t i a hi'
          | succ j =>
              have hi' : i < t.length := by simpa using hi
              have hj' : j < t.length := by simpa using hj
              simpa [listSwap] using List.Perm.cons a (ih i j hi' hj')

theorem listSwap_length (l : List Nat) (i j : Nat) :
    (listSwap l i j).length = l.length := by
  simp [listSwap]

/-- The whole shuffle loop permutes its input list. -/
theorem fisherYatesLoop_perm :
    ∀ (i s : Nat) (p : List Nat), i < p.length →
      List.Perm (fisherYatesLoop i s p) p := by
  intro i
  induction i with
  | zero => intro s p _; exact List.Perm.refl p
  | succ i ih =>
      intro s p h
      have hlen : (listSwap p (i + 1) (xorshift32 s % (i + 1 + 1))).length
          = p.length := listSwap_length _ _ _
      have hj : xorshift32 s % (i + 1 + 1) < p.length :=
        lt_of_lt_of_le (Nat.mod_lt _ (by omega)) (by omega)
      have hrec :
          List.Perm
            (fisherYatesLoop i (xorshift32 s)
              (listSwap p (i + 1) (xorshift32 s % (i + 1 + 1))))
            (listSwap p (i + 1) (xorshift32 s % (i + 1 + 1))) :=
        ih _ _ (by omega)
      exact hrec.trans (listSwap_perm p (i + 1) _ h hj)

/-! ## List access helpers -/

theorem getD_mem (l : List Nat) (i : Nat) (h : i < l.length) :
    l.getD i 0 ∈ l := by
  rw [List.getD_eq_getElem?_getD, List.getElem?_eq_getElem h]
  exact List.getElem_mem h

theorem getD_len_le (l : List Nat) (i : Nat) (h : l.length ≤ i) :
    l.getD i 0 = 0 := by
  rw [List.getD_eq_getElem?_getD, List.getElem?_eq_none h]
  rfl

theorem getD_set_self (l : List Nat) (i : Nat) (v : Nat)
    (h : i < l.length) : (l.set i v).getD i 0 = v := by
  rw [List.getD_eq_getElem?_getD, List.getElem?_set_self h]
  rfl

theorem getD_set_ne (l : List Nat) (i j v : Nat) (h : i ≠ j) :
    (l.set i v).getD j 0 = l.getD j 0 := by
  rw [List.getD_eq_getElem?_getD, List.getElem?_set_ne h,
    List.getD_eq_getElem?_getD]

/-- Invariant preservation along a left fold. -/
theorem foldl_inv {α β : Type} (step : β → α → β) (P : β → Prop)
    (h : ∀ st a, P st → P (step st a)) :
    ∀ (l : List α) (st : β), P st → P (l.foldl step st) := by
  intro l
  induction l with
  | nil => intro st h0; exact h0
  | cons a t ih => intro st h0; exact ih (step st a) (h st a h0)

/-- A fold whose every step over the given index list fixes the state. -/
theorem foldl_noop_mem {α β : Type} (step : β → α → β) (st : β)
    (l : List α) (h : ∀ a ∈ l, step st a = st) : l.foldl step st = st := by
  induction l with
  | nil => rfl
  | cons a t ih =>
      rw [List.foldl_cons, h a (List.mem_cons_self a t)]
      exact ih (fun b hb => h b (List.mem_cons_of_mem a hb))

/-! ## Byte-arithmetic lemmas -/

theorem land31_eq {a : Nat} (h : a ≤ 31) : Nat.land a 31 = a := by
  interval_cases a <;> decide

theorem enc_true_eq {m : Nat} (h : m ≤ 31) :
    Nat.land (Nat.lor (Nat.lor 128 0) (Nat.land m 31)) 255 = 128 + m := by
  interval_cases m <;> decide

theorem land_bit7 {s m : Nat} (hs : s = 0 ∨ s = 64) (hm : m ≤ 31) :
    Nat.land (128 + s + m) 128 = 128 := by
  rcases hs with rfl | rfl <;> interval_cases m <;> decide

theorem lor64_eq {s m : Nat} (hs : s = 0 ∨ s = 64) (hm : m ≤ 31) :
    Nat.lor (128 + s + m) 64 = 128 + 64 + m := by
  rcases hs with rfl | rfl <;> interval_cases m <;> decide

theorem mask_eq {s m : Nat} (hs : s = 0 ∨ s = 64) (hm : m ≤ 31) :
    Nat.land (128 + s + m) 4294967264 = 128 + s := by
  rcases hs with rfl | rfl <;> interval_cases m <;> decide

theorem lor_low {s a : Nat} (hs : s = 0 ∨ s = 64) (ha : a ≤ 31) :
    Nat.lor (128 + s) a = 128 + s + a := by
  rcases hs with rfl | rfl <;> interval_cases a <;> decide

/-! ## Shape lemmas -/

theorem shape_encode (isLand : Bool) (rawMag : Nat) :
    Shape (encodeCell isLand rawMag) := by
  cases isLand with
  | false => exact Or.inl (by simp [encodeCell]; decide)
  | true =>
      refine Or.inr ⟨0, min 31 rawMag, Or.inl rfl,
        Nat.min_le_left 31 rawMag, ?_⟩
      show Nat.land (Nat.lor (Nat.lor 128 0) (Nat.land (min 31 rawMag) 31))
        255 = 128 + 0 + min 31 rawMag
      rw [enc_true_eq (Nat.min_le_left 31 rawMag)]

theorem shape_ne_zero_one {b : Nat} (h : Shape b) : b ≠ 0 ∧ b ≠ 1 := by
  rcases h with rfl | ⟨s, m, hs, hm, rfl⟩
  · exact ⟨by decide, by decide⟩
  · omega

theorem shape_water {b : Nat} (h : Shape b) (hw : Nat.land b 128 = 0) :
    b = 32 := by
  rcases h with rfl | ⟨s, m, hs, hm, rfl⟩
  · rfl
  · rw [land_bit7 hs hm] at hw; omega

theorem shape_land_decomp {b : Nat} (h : Shape b)
    (hl : Nat.land b 128 ≠ 0) :
    ∃ s m, (s = 0 ∨ s = 64) ∧ m ≤ 31 ∧ b = 128 + s + m := by
  rcases h with rfl | hb
  · exact absurd (by decide : Nat.land 32 128 = 0) hl
  · exact hb

theorem shape_lor64 {b : Nat} (h : Shape b) (hl : Nat.land b 128 ≠ 0) :
    Shape (Nat.lor b 64) := by
  obtain ⟨s, m, hs, hm, rfl⟩ := shape_land_decomp h hl
  rw [lor64_eq hs hm]
  exact Or.inr ⟨64, m, Or.inr rfl, hm, rfl⟩

theorem shape_mag_write {b a : Nat} (h : Shape b)
    (hl : Nat.land b 128 ≠ 0) (ha : a ≤ 31) :
    Shape (Nat.lor (Nat.land b 4294967264) (Nat.land a 31)) ∧
    Nat.land (Nat.lor (Nat.land b 4294967264) (Nat.land a 31)) 128 ≠ 0 := by
  obtain ⟨s, m, hs, hm, rfl⟩ := shape_land_decomp h hl
  rw [mask_eq hs hm, land31_eq ha, lor_low hs ha]
  exact ⟨Or.inr ⟨s, a, hs, ha, rfl⟩, by rw [land_bit7 hs ha]; omega⟩

theorem mem_getD {x : Nat} {l : List Nat} (h : x ∈ l) :
    ∃ n, n < l.length ∧ l.getD n 0 = x := by
  obtain ⟨n, hn⟩ := List.mem_iff_getElem?.mp h
  refine ⟨n, ?_, ?_⟩
  · by_contra hc
    rw [List.getElem?_eq_none (Nat.le_of_not_lt hc)] at hn
    exact Option.noConfusion hn
  · rw [List.getD_eq_getElem?_getD, hn]
    rfl

/-! ## Pass lemmas: every pipeline pass preserves the byte shapes -/

/-- On a buffer of encoded bytes (never `0` or `1`), both scans of
`removeSmallRegions` find no matching cell, so the pass is the identity. -/
theorem removeSmallRegions_noop (g : List Nat) (w h a b : Nat)
    (hlen : g.length = w * h) (hs : ∀ x ∈ g, Shape x) :
    removeSmallRegions g w h a b = g := by
  have hstep : ∀ (target minSize repl : Nat), target = 0 ∨ target = 1 →
      ∀ (v : List Bool), ∀ i ∈ List.range (w * h),
        rsrScanStep w h target minSize repl (g, v) i = (g, v) := by
    intro target minSize repl htgt v i hi
    have hi' : i < g.length := by rw [hlen]; exact List.mem_range.mp hi
    have h01 := shape_ne_zero_one (hs _ (getD_mem g i hi'))
    have hne : ¬(v.getD i false = false ∧ g.getD i 0 = target) := by
      rintro ⟨-, hgt⟩
      rcases htgt with rfl | rfl
      · exact h01.1 hgt
      · exact h01.2 hgt
    unfold rsrScanStep
    rw [if_neg hne]
  show ((List.range (w * h)).foldl (rsrScanStep w h 0 b 1)
      (((List.range (w * h)).foldl (rsrScanStep w h 1 a 0)
        (g, List.replicate (w * h) false)).1,
        List.replicate (w * h) false)).1 = g
  rw [foldl_noop_mem _ _ _ (hstep 1 a 0 (Or.inr rfl)
    (List.replicate (w * h) false))]
  show ((List.range (w * h)).foldl (rsrScanStep w h 0 b 1)
      (g, List.replicate (w * h) false)).1 = g
  rw [foldl_noop_mem _ _ _ (hstep 0 b 1 (Or.inl rfl)
    (List.replicate (w * h) false))]

/-- The ocean flood-fill loop only ORs the already-shaped `OCEAN` bit into
water bytes, so byte shapes are preserved for any fuel, visited array and
queue. -/
theorem floodLoop_shape (w h : Nat) :
    ∀ (fuel : Nat) (buf : List Nat) (visited : List Bool)
      (q : List (Nat × Nat)), (∀ x ∈ buf, Shape x) →
      ∀ x ∈ floodLoop w h fuel buf visited q, Shape x := by
  intro fuel
  induction fuel with
  | zero => intro buf visited q hs; simpa [floodLoop] using hs
  | succ fuel ih =>
      intro buf visited q hs
      match q with
      | [] => simpa [floodLoop] using hs
      | (cx, cy) :: q =>
          simp only [floodLoop]
          by_cases h1 : visited.getD (gIdx w cx cy) false = true
          · simp only [if_pos h1]; exact ih _ _ _ hs
          · simp only [if_neg h1]
            by_cases h2 : Nat.land (buf.getD (gIdx w cx cy) 0) 128 ≠ 0
            · simp only [if_pos h2]; exact ih _ _ _ hs
            · simp only [if_neg h2]
              rw [Classical.not_not] at h2
              apply ih
              intro x hx
              rcases List.mem_or_eq_of_mem_set hx with hx | rfl
              · exact hs x hx
              · by_cases hci : gIdx w cx cy < buf.length
                · rw [shape_water (hs _ (getD_mem _ _ hci)) h2]
                  exact Or.inl (by decide)
                · rw [getD_len_le _ _ (Nat.le_of_not_lt hci)]
                  exact Or.inl (by decide)

/-- The shoreline pass only ORs bit 6 into land bytes. -/
theorem shorelinePass_shape (w h : Nat) (buf : List Nat)
    (hs : ∀ x ∈ buf, Shape x) : ∀ x ∈ shorelinePass w h buf, Shape x := by
  unfold shorelinePass
  refine foldl_inv _ (fun out => ∀ x ∈ out, Shape x) ?_ _ _ hs
  intro out i hout
  dsimp only
  by_cases h1 : Nat.land (out.getD i 0) 128 = 0
  · simp only [if_pos h1]; exact hout
  · simp only [if_neg h1]
    split
    · intro x hx
      rcases List.mem_or_eq_of_mem_set hx with hx | rfl
      · exact hout x hx
      · have hi : i < out.length := by
          by_contra hc
          rw [getD_len_le out i (Nat.le_of_not_lt hc)] at h1
          exact h1 (by decide)
        exact shape_lor64 (hout _ (getD_mem out i hi)) h1
    · exact hout

/-- A buffer satisfying `MagInv` over a shaped source is itself shaped. -/
theorem magInv_shape {buf out : List Nat} (hs : ∀ x ∈ buf, Shape x)
    (hI : MagInv buf out) : ∀ x ∈ out, Shape x := by
  intro x hx
  obtain ⟨n, hn, hget⟩ := mem_getD hx
  rcases hI.2 n with heq | hshape
  · rw [← hget, heq]
    have hn' : n < buf.length := by rw [← hI.1]; exact hn
    exact hs _ (getD_mem buf n hn')
  · rw [← hget]; exact hshape.1

/-- Writing a shaped land byte's masked magnitude update at a land cell
preserves `MagInv`. -/
theorem magInv_write {buf out : List Nat} (i a : Nat)
    (hs : ∀ x ∈ buf, Shape x) (hI : MagInv buf out)
    (h1 : Nat.land (buf.getD i 0) 128 ≠ 0) (ha : a ≤ 31) :
    MagInv buf
      (out.set i
        (Nat.lor (Nat.land (out.getD i 0) 4294967264) (Nat.land a 31))) := by
  have hi : i < buf.length := by
    by_contra hc
    rw [getD_len_le buf i (Nat.le_of_not_lt hc)] at h1
    exact h1 (by decide)
  have hi' : i < out.length := by rw [hI.1]; exact hi
  have hb : Shape (out.getD i 0) ∧ Nat.land (out.getD i 0) 128 ≠ 0 := by
    rcases hI.2 i with heq | hshape
    · rw [heq]; exact ⟨hs _ (getD_mem buf i hi), h1⟩
    · exact hshape
  have hwrite := shape_mag_write hb.1 hb.2 ha
  refine ⟨by rw [List.length_set]; exact hI.1, ?_⟩
  intro j
  by_cases hj : i = j
  · subst hj
    rw [getD_set_self _ _ _ hi']
    exact Or.inr hwrite
  · rw [getD_set_ne _ _ _ _ hj]
    exact hI.2 j

/-- The magnitude-smoothing pass rewrites only the low five bits of land
bytes (with a value at most 31), preserving byte shapes. -/
theorem smoothPass_shape (w h r : Nat) (buf : List Nat)
    (hs : ∀ x ∈ buf, Shape x) : ∀ x ∈ smoothPass w h r buf, Shape x := by
  refine magInv_shape hs ?_
  unfold smoothPass
  refine foldl_inv _ (MagInv buf) ?_ _ _ ⟨rfl, fun j => Or.inl rfl⟩
  intro out i hI
  dsimp only
  by_cases h1 : Nat.land (buf.getD i 0) 128 = 0
  · simp only [if_pos h1]; exact hI
  · simp only [if_neg h1]
    by_cases h2 : r = 0
    · simp only [if_pos h2]; exact hI
    · simp only [if_neg h2]
      exact magInv_write _ _ hs hI h1 (Nat.min_le_left 31 _)

/-- The ridge-accent pass rewrites only the low five bits of land bytes
(with a value at most 31), preserving byte shapes. -/
theorem ridgePass_shape (w h : Nat) (e : Bool) (buf : List Nat)
    (hs : ∀ x ∈ buf, Shape x) : ∀ x ∈ ridgePass w h e buf, Shape x := by
  cases e with
  | false => simpa [ridgePass] using hs
  | true =>
      refine magInv_shape hs ?_
      unfold ridgePass
      rw [if_pos rfl]
      refine foldl_inv _ (MagInv buf) ?_ _ _ ⟨rfl, fun j => Or.inl rfl⟩
      intro out i hI
      dsimp only
      by_cases h1 : Nat.land (buf.getD i 0) 128 = 0
      · simp only [if_pos h1]; exact hI
      · simp only [if_neg h1]
        split
        · exact magInv_write _ _ hs hI h1 (Nat.min_le_left 31 _)
        · exact hI

/-- Every byte of a generated terrain buffer has one of the three encoded
shapes. -/
theorem generateTerrainBin_shape (cparams : Option GenParams)
    (store : GenParams) (oracle : NoiseOracle) (w h seed : Nat) (thr : ℚ) :
    ∀ x ∈ generateTerrainBin cparams store oracle w h seed thr, Shape x := by
  unfold generateTerrainBin
  have henc : ∀ x ∈ (List.range (w * h)).map
      (fun i => encodeCell (oracle seed store.octaves store.lacunarity
        store.persistence (cparams.getD store).contrastGamma thr
        (i % w) (i / w)).1
        (oracle seed store.octaves store.lacunarity store.persistence
          (cparams.getD store).contrastGamma thr (i % w) (i / w)).2),
      Shape x := by
    intro x hx
    obtain ⟨i, -, rfl⟩ := List.mem_map.mp hx
    exact shape_encode _ _
  have hlen : ((List.range (w * h)).map
      (fun i => encodeCell (oracle seed store.octaves store.lacunarity
        store.persistence (cparams.getD store).contrastGamma thr
        (i % w) (i / w)).1
        (oracle seed store.octaves store.lacunarity store.persistence
          (cparams.getD store).contrastGamma thr (i % w) (i / w)).2)).length
      = w * h := by
    rw [List.length_map, List.length_range]
  apply ridgePass_shape
  apply smoothPass_shape
  apply shorelinePass_shape
  apply floodLoop_shape
  rw [removeSmallRegions_noop _ _ _ _ _ hlen henc]
  exact henc

theorem shape_props {b : Nat} (h : Shape b) :
    ¬(b.testBit 7 ∧ b.testBit 5) ∧ (b.testBit 6 → b.testBit 7) ∧
    (¬b.testBit 7 → b % 32 = 0) ∧ b % 32 ≤ 31 := by
  rcases h with rfl | ⟨s, m, hs, hm, rfl⟩
  · decide
  · rcases hs with rfl | rfl <;> interval_cases m <;> decide

end OpenFront

open OpenFront

/-! ## Claim theorems -/

/-- C1.  The spec claims region pruning guarantees every land component
has size ≥ `minLandRegionSize` and in particular that a single 1-cell land
island with `minLandRegionSize = 2` is erased.  The code disagrees:
`removeSmallRegions` compares the encoded bytes against the raw mask
values `1`/`0` (land is encoded as `0x80 | mag` and water as `0x20`), so
on the encoded buffer it matches nothing and is the identity.  Evaluated
at a 3×3 sea with one land cell at `(1, 1)` and `minLandRegionSize = 2`:
the pruning call leaves the encoded buffer unchanged, and the finished
buffer still contains exactly one land cell (a 1-cell component < 2). -/
theorem pruning_noop_island_survives :
    removeSmallRegions [32, 32, 32, 32, 128, 32, 32, 32, 32] 3 3 2 0
      = [32, 32, 32, 32, 128, 32, 32, 32, 32] ∧
    generateTerrainBin (some sampleParams) sampleParams islandOracle 3 3 7
      (23/50) = [32, 32, 32, 32, 192, 32, 32, 32, 32] ∧
    landTiles
      (generateTerrainBin (some sampleParams) sampleParams islandOracle 3 3 7
        (23/50)) = 1 ∧
    sampleParams.minLandRegionSize = 2 := by
  refine ⟨by decide, by decide, by decide, rfl⟩

/-- C2.  The spec claims a water cell carries the `OCEAN` bit iff it has a
4-connected water path to the border.  The code disagrees: the encoder
already sets the `OCEAN` bit on every water cell and the edge flood fill
only ever ORs the bit in — it never clears it for enclosed water (despite
the source comment "unset OCEAN for enclosed water").  Evaluated on a 3×3
land ring around one water cell at `(1, 1)`: the enclosed cell keeps the
`OCEAN` bit even though all four of its neighbours are land, so it has no
water path to any border cell. -/
theorem enclosed_water_keeps_ocean_bit :
    generateTerrainBin (some sampleParams) sampleParams ringOracle 3 3 7
        (23/50) = [128, 192, 128, 192, 32, 192, 128, 192, 128] ∧
    (Nat.land ((generateTerrainBin (some sampleParams) sampleParams
        ringOracle 3 3 7 (23/50)).getD 4 0) 128 = 0 ∧
      Nat.land ((generateTerrainBin (some sampleParams) sampleParams
        ringOracle 3 3 7 (23/50)).getD 4 0) 32 ≠ 0) ∧
    (∀ i ∈ [1, 3, 5, 7],
      Nat.land ((generateTerrainBin (some sampleParams) sampleParams
        ringOracle 3 3 7 (23/50)).getD i 0) 128 ≠ 0) := by
  refine ⟨by decide, ⟨by decide, by decide⟩, by decide⟩

/-- C3.  The spec claims `SHORELINE` is set iff some 4-neighbour is
edge-reachable ocean water, and that lake-adjacent land is *not*
shoreline.  Because every water cell carries the `OCEAN` bit (see C2),
the shoreline pass marks lake-adjacent land too.  Evaluated on the 3×3
ring grid: the land cell at `(1, 0)` (index 1) is marked `SHORELINE`
although its only water neighbour is the enclosed lake cell `(1, 1)`
(whose own neighbours are all land, so it is not edge-reachable). -/
theorem lake_adjacent_land_marked_shoreline :
    (Nat.land ((generateTerrainBin (some sampleParams) sampleParams
        ringOracle 3 3 7 (23/50)).getD 1 0) 64 ≠ 0 ∧
      Nat.land ((generateTerrainBin (some sampleParams) sampleParams
        ringOracle 3 3 7 (23/50)).getD 1 0) 128 ≠ 0) ∧
    (∀ i ∈ [0, 2],
      Nat.land ((generateTerrainBin (some sampleParams) sampleParams
        ringOracle 3 3 7 (23/50)).getD i 0) 128 ≠ 0) ∧
    Nat.land ((generateTerrainBin (some sampleParams) sampleParams
        ringOracle 3 3 7 (23/50)).getD 4 0) 128 = 0 ∧
    (∀ i ∈ [1, 3, 5, 7],
      Nat.land ((generateTerrainBin (some sampleParams) sampleParams
        ringOracle 3 3 7 (23/50)).getD i 0) 128 ≠ 0) := by
  refine ⟨⟨by decide, by decide⟩, by decide, by decide, by decide⟩

/-- C4.  The spec claims the manifest's `num_land_tiles` equals the number
of cells with the `IS_LAND` bit (bit 7) set.  The code disagrees:
`countLand` counts bytes strictly equal to `1`, a value the encoded format
never produces, so the manifest reports `0` whenever the buffer contains
land.  Evaluated at the island fixture: the generated product's base-map
manifest entry says `0` land tiles while the buffer has `1` cell with
bit 7 set. -/
theorem manifest_land_count_diverges :
    ((getMapData (some sampleParams) sampleParams islandOracle
        ⟨none, 0⟩ GameMapType.generated).1.toOption.map
      (fun d => (d.manifest.map.num_land_tiles, landTiles d.mapBin)))
      = some (0, 1) := by
  decide

/-- C6.  Determinism: `generateTerrainBin` is a pure function of the
injected constructor params, the parameter-store snapshot, the
(deterministic) float front end, and its four arguments; two runs over
equal inputs produce byte-identical buffers.  The per-run `Simplex2D`
state is itself a function of the seed, and the floating-point evaluation
is the platform's fixed deterministic `Math` arithmetic, abstracted here
as the `oracle` argument. -/
theorem generateTerrainBin_deterministic (cparams : Option GenParams)
    (store : GenParams) (oracle : NoiseOracle)
    (w₁ h₁ s₁ w₂ h₂ s₂ : Nat) (t₁ t₂ : ℚ)
    (hw : w₁ = w₂) (hh : h₁ = h₂) (hs : s₁ = s₂) (ht : t₁ = t₂) :
    generateTerrainBin cparams store oracle w₁ h₁ s₁ t₁
      = generateTerrainBin cparams store oracle w₂ h₂ s₂ t₂ := by
  subst hw; subst hh; subst hs; subst ht; rfl

/-- Witness for C6 at concrete inputs. -/
theorem generateTerrainBin_deterministic_witness :
    generateTerrainBin (some sampleParams) sampleParams islandOracle 3 3 7
        (23/50)
      = generateTerrainBin (some sampleParams) sampleParams islandOracle 3 3
        7 (23/50) :=
  generateTerrainBin_deterministic (some sampleParams) sampleParams
    islandOracle 3 3 7 3 3 7 (23/50) (23/50) rfl rfl rfl rfl

/-- C7.  For any identity other than the generated kind, `getMapData`
fails immediately with the invalid-argument error naming the identity and
returns the loader state unchanged (the throw precedes every state
mutation, so no partial product exists); the message identifies the
identity injectively; and for the generated kind the call does not fail. -/
theorem getMapData_rejects_non_generated (cparams : Option GenParams)
    (store : GenParams) (oracle : NoiseOracle) (st : LoaderState)
    (m : GameMapType) (hm : m ≠ GameMapType.generated) :
    getMapData cparams store oracle st m
      = (Except.error (rejectionMessage m), st) ∧
    (∀ m₁ m₂ : GameMapType,
      rejectionMessage m₁ = rejectionMessage m₂ → m₁ = m₂) ∧
    (∃ d, (getMapData cparams store oracle st GameMapType.generated).1
      = Except.ok d) := by
  refine ⟨by simp [getMapData, hm], by decide, ?_⟩
  obtain ⟨cache, k⟩ := st
  cases cache with
  | none => exact ⟨_, rfl⟩
  | some cached => exact ⟨cached, rfl⟩

/-- Witness for C7 at the concrete identity `World`. -/
theorem getMapData_rejects_non_generated_witness :
    getMapData (some sampleParams) sampleParams islandOracle ⟨none, 0⟩
        GameMapType.world
      = (Except.error (rejectionMessage GameMapType.world), ⟨none, 0⟩) ∧
    (∀ m₁ m₂ : GameMapType,
      rejectionMessage m₁ = rejectionMessage m₂ → m₁ = m₂) ∧
    (∃ d, (getMapData (some sampleParams) sampleParams islandOracle
      ⟨none, 0⟩ GameMapType.generated).1 = Except.ok d) :=
  getMapData_rejects_non_generated (some sampleParams) sampleParams
    islandOracle ⟨none, 0⟩ GameMapType.world (by decide)

/-- C8.  Calling `getMapData` twice with the generated identity on a fresh
loader returns the same product by value, and the second call returns the
cached product with the loader state (including the noise-evaluator
construction counter) unchanged: no recomputation happens. -/
theorem getMapData_idempotent_cached (cparams : Option GenParams)
    (store : GenParams) (oracle : NoiseOracle) :
    (getMapData cparams store oracle
        (getMapData cparams store oracle ⟨none, 0⟩
          GameMapType.generated).2 GameMapType.generated).1
      = (getMapData cparams store oracle ⟨none, 0⟩
          GameMapType.generated).1 ∧
    (getMapData cparams store oracle
        (getMapData cparams store oracle ⟨none, 0⟩
          GameMapType.generated).2 GameMapType.generated).2
      = (getMapData cparams store oracle ⟨none, 0⟩
          GameMapType.generated).2 := by
  constructor <;> simp [getMapData]

/-- C9 counterexample.  The permutation built from seed `2` has the fixed
point `p[40] = 40`, so `buildPermutation` does not always return a
derangement. -/
theorem buildPermutation_fixed_point :
    40 < (buildPermutation 2).length ∧
    (buildPermutation 2).getD 40 0 = 40 := by
  constructor <;> decide

/-- C9 (amended).  For every seed, `buildPermutation` returns a 256-entry
table that is a permutation of the values `0..255` (seeded Fisher–Yates
over `xorshift32`); it is not in general a derangement. -/
theorem buildPermutation_is_permutation (seed : Nat) :
    (buildPermutation seed).length = 256 ∧
    List.Perm (buildPermutation seed) (List.range 256) := by
  have h := fisherYatesLoop_perm 255 (seed % 4294967296) (List.range 256)
    (by simp)
  exact ⟨by simpa using h.length_eq, h⟩

/-- C10.  Two loaders whose injected params agree on seed, the six
dimension fields, land threshold, contrast gamma, smoothing radius and
ridge accent — but may differ arbitrarily in octaves, lacunarity,
persistence, `minLandRegionSize` and `minWaterRegionSize` — produce
identical products under the same global store state: the generator reads
those five fields from the global store, never from the injected params. -/
theorem constructor_params_partial_influence (store : GenParams)
    (oracle : NoiseOracle) (st : LoaderState) (p₁ p₂ : GenParams)
    (hseed : p₁.seed = p₂.seed) (hw : p₁.width = p₂.width)
    (hh : p₁.height = p₂.height) (hw4 : p₁.width4x = p₂.width4x)
    (hh4 : p₁.height4x = p₂.height4x) (hw16 : p₁.width16x = p₂.width16x)
    (hh16 : p₁.height16x = p₂.height16x)
    (ht : p₁.landThreshold = p₂.landThreshold)
    (hg : p₁.contrastGamma = p₂.contrastGamma)
    (hsm : p₁.smoothingRadius = p₂.smoothingRadius)
    (hr : p₁.ridgeAccent = p₂.ridgeAccent) :
    getMapData (some p₁) store oracle st GameMapType.generated
      = getMapData (some p₂) store oracle st GameMapType.generated := by
  obtain ⟨o₁, l₁, q₁, t₁, s₁, g₁, w₁, ht₁, x₁, y₁, u₁, v₁, a₁, b₁, r₁, e₁⟩
    := p₁
  obtain ⟨o₂, l₂, q₂, t₂, s₂, g₂, w₂, ht₂, x₂, y₂, u₂, v₂, a₂, b₂, r₂, e₂⟩
    := p₂
  dsimp only at hseed hw hh hw4 hh4 hw16 hh16 ht hg hsm hr
  subst hseed; subst hw; subst hh; subst hw4; subst hh4; subst hw16
  subst hh16; subst ht; subst hg; subst hsm; subst hr
  rfl

/-- Witness for C10: two concrete param records differing in octaves,
lacunarity, persistence and both minimum region sizes. -/
theorem constructor_params_partial_influence_witness :
    getMapData (some sampleParams) sampleParams islandOracle ⟨none, 0⟩
        GameMapType.generated
      = getMapData (some sampleParamsB) sampleParams islandOracle ⟨none, 0⟩
          GameMapType.generated :=
  constructor_params_partial_influence sampleParams islandOracle ⟨none, 0⟩
    sampleParams sampleParamsB
    rfl rfl rfl rfl rfl rfl rfl rfl rfl rfl rfl
/-- C5.  For every cell of every buffer `generateTerrainBin` returns (for
any params, store snapshot, front-end values, dimensions, seed and
threshold): the `IS_LAND` bit (7) and the `OCEAN` bit (5) are never both
set; the `SHORELINE` bit (6) is set only on land; the 5-bit magnitude
field is `0` whenever `IS_LAND` is unset; and the magnitude field decodes
into `[0, 31]`. -/
theorem terrain_byte_invariants (cparams : Option GenParams)
    (store : GenParams) (oracle : NoiseOracle) (w h seed : Nat) (thr : ℚ) :
    ∀ b ∈ generateTerrainBin cparams store oracle w h seed thr,
      ¬(b.testBit 7 ∧ b.testBit 5) ∧ (b.testBit 6 → b.testBit 7) ∧
      (¬b.testBit 7 → b % 32 = 0) ∧ b % 32 ≤ 31 :=
  fun b hb =>
    shape_props (generateTerrainBin_shape cparams store oracle w h seed thr
      b hb)

/-- Witness for C5 at a concrete 1×1 all-water buffer. -/
theorem terrain_byte_invariants_witness :
    32 ∈ generateTerrainBin (some sampleParams) sampleParams islandOracle
      1 1 7 (23/50) ∧
    (¬((32 : Nat).testBit 7 ∧ (32 : Nat).testBit 5) ∧
      ((32 : Nat).testBit 6 → (32 : Nat).testBit 7) ∧
      (¬(32 : Nat).testBit 7 → 32 % 32 = 0) ∧ 32 % 32 ≤ 31) :=
  ⟨by decide,
    terrain_byte_invariants (some sampleParams) sampleParams islandOracle
      1 1 7 (23/50) 32 (by decide)⟩
